import Mathlib

/-!
Shallow embedding of the tic-tac-toe core of the py-game repository
(src/tic_tac_toe/models and src/tic_tac_toe/services), translated from
the Python source.  Mutable objects become explicit state passing; a Python
`IndexError` escaping a function is modelled by an `Option`-valued result
(`none` = the exception propagates); constructor validation that raises
`ValueError` is modelled by `Except String` smart constructors.
-/

set_option maxHeartbeats 2000000

namespace PyGame

/-- Player enum from models/player.py: NONE = 0, X = 1, O = 2. -/
inductive Player where
  | NONE
  | X
  | O
deriving DecidableEq, Fintype

/-- GameStatus enum from models/game_status.py. -/
inductive GameStatus where
  | IN_PROGRESS
  | X_WINS
  | O_WINS
  | TIE
deriving DecidableEq, Fintype

/-- Python enum's `.name` attribute, used by MoveExecutor messages. -/
def Player.pname : Player → String
  | .NONE => "NONE"
  | .X => "X"
  | .O => "O"

/-- GridCoordinate from models/value_objects.py: a pair of Python ints.
The raising constructor `__init__` is modelled separately by
`GridCoordinate.mk?`; this structure is the raw data. -/
structure GridCoordinate where
  row : Int
  col : Int
deriving DecidableEq

/-- GridCoordinate.__init__: raises ValueError when row < 0 or col < 0,
otherwise stores row and col unchanged. -/
def GridCoordinate.mk? (row col : Int) : Except String GridCoordinate :=
  if row < 0 ∨ col < 0 then .error "Grid coordinates must be non-negative"
  else .ok ⟨row, col⟩

/-- GridCoordinate.is_valid_for_grid: 0 <= row < grid_size and 0 <= col < grid_size. -/
def GridCoordinate.is_valid_for_grid (c : GridCoordinate) (grid_size : Nat) : Bool :=
  decide (0 ≤ c.row) && decide (c.row < (grid_size : Int)) &&
  decide (0 ≤ c.col) && decide (c.col < (grid_size : Int))

/-- GridSize from models/value_objects.py: a single Python int. -/
structure GridSize where
  size : Int
deriving DecidableEq

/-- GridSize.__init__ (default 3): raises ValueError when size <= 0 or
size > 10, otherwise stores size unchanged. -/
def GridSize.mk? (size : Int) : Except String GridSize :=
  if size ≤ 0 then .error "Grid size must be positive"
  else if size > 10 then .error "Grid size too large (maximum 10)"
  else .ok ⟨size⟩

/-- Move from models/move.py: coordinate plus the player who moved. -/
structure Move where
  coordinate : GridCoordinate
  player : Player
deriving DecidableEq

/-- GameBoard._create_empty_board: size x size matrix of Player.NONE. -/
def createEmptyBoard (n : Nat) : List (List Player) :=
  List.replicate n (List.replicate n Player.NONE)

/-- Read access `board[r][c]` for non-negative indices; `none` models the
indices being out of range (a Python IndexError at this access). -/
def cell? (b : List (List Player)) (r c : Nat) : Option Player :=
  (b.get? r).bind fun row => row.get? c

/-- GameBoard.place_move: `self.board[row][col] = player`.  Call sites in
the source always validate the coordinate first, so the out-of-range case
(Python would raise) is modelled as a no-op. -/
def place_move (b : List (List Player)) (c : GridCoordinate) (p : Player) :
    List (List Player) :=
  match b.get? c.row.toNat with
  | some row => b.set c.row.toNat (row.set c.col.toNat p)
  | none => b

/-- BoardValidator.is_cell_empty: false when the position is out of bounds,
otherwise `board[row][col] == Player.NONE`. -/
def is_cell_empty (n : Nat) (b : List (List Player)) (c : GridCoordinate) : Bool :=
  c.is_valid_for_grid n && (cell? b c.row.toNat c.col.toNat == some Player.NONE)

/-- BoardValidator._has_empty_cell_in_row: any cell of the row equals NONE. -/
def has_empty_cell_in_row (n : Nat) (b : List (List Player)) (row : Nat) : Bool :=
  (List.range n).any fun col => cell? b row col == some Player.NONE

/-- BoardValidator.is_board_full: no row has an empty cell. -/
def is_board_full (n : Nat) (b : List (List Player)) : Bool :=
  (List.range n).all fun row => !(has_empty_cell_in_row n b row)

/-- WinChecker._is_winning_line: `cell1 == cell2 == cell3 != Player.NONE`. -/
def isWinningLine (c1 c2 c3 : Player) : Bool :=
  c1 == c2 && c2 == c3 && c3 != Player.NONE

/-- Loop body of WinChecker._check_rows_for_winner over the remaining row
indices.  Note the source reads `board[row][0]`, `board[row][1]`,
`board[row][2]` with literal column indices; an out-of-range read is a
Python IndexError, modelled by the outer `none`. -/
def checkRowsAux (b : List (List Player)) : List Nat → Option (Option Player)
  | [] => some none
  | r :: rest =>
    match cell? b r 0, cell? b r 1, cell? b r 2 with
    | some x, some y, some z =>
      if isWinningLine x y z then some (some x) else checkRowsAux b rest
    | _, _, _ => none

/-- WinChecker._check_rows_for_winner: `for row in range(self.grid_size.size)`. -/
def check_rows_for_winner (n : Nat) (b : List (List Player)) : Option (Option Player) :=
  checkRowsAux b (List.range n)

/-- Loop body of WinChecker._check_columns_for_winner: the source reads
`board[0][col]`, `board[1][col]`, `board[2][col]` with literal row indices. -/
def checkColsAux (b : List (List Player)) : List Nat → Option (Option Player)
  | [] => some none
  | c :: rest =>
    match cell? b 0 c, cell? b 1 c, cell? b 2 c with
    | some x, some y, some z =>
      if isWinningLine x y z then some (some x) else checkColsAux b rest
    | _, _, _ => none

/-- WinChecker._check_columns_for_winner: `for col in range(self.grid_size.size)`. -/
def check_columns_for_winner (n : Nat) (b : List (List Player)) : Option (Option Player) :=
  checkColsAux b (List.range n)

/-- WinChecker._check_diagonals_for_winner: fixed cells (0,0),(1,1),(2,2)
then (0,2),(1,1),(2,0). -/
def check_diagonals_for_winner (b : List (List Player)) : Option (Option Player) :=
  match cell? b 0 0, cell? b 1 1, cell? b 2 2 with
  | some x, some y, some z =>
    if isWinningLine x y z then some (some x)
    else
      match cell? b 0 2, cell? b 1 1, cell? b 2 0 with
      | some u, some v, some w =>
        if isWinningLine u v w then some (some u) else some none
      | _, _, _ => none
  | _, _, _ => none

/-- WinChecker.check_for_winner: rows, then columns, then diagonals,
returning the first winner found; `none` (outer) models an IndexError. -/
def check_for_winner (n : Nat) (b : List (List Player)) : Option (Option Player) :=
  match check_rows_for_winner n b with
  | none => none
  | some (some w) => some (some w)
  | some none =>
    match check_columns_for_winner n b with
    | none => none
    | some (some w) => some (some w)
    | some none => check_diagonals_for_winner b

/-- Spec-side predicate, written from the spec's words (§4.3): player `p`
is a winner on an n x n board exactly when `p ≠ NONE` and some full row,
some full column, the main diagonal, or the main anti-diagonal consists of
`n` cells all equal to `p`. -/
def specCompleteLine (n : Nat) (b : List (List Player)) (p : Player) : Bool :=
  (p != Player.NONE) &&
  (((List.range n).any fun r => (List.range n).all fun c => cell? b r c == some p) ||
   ((List.range n).any fun c => (List.range n).all fun r => cell? b r c == some p) ||
   ((List.range n).all fun i => cell? b i i == some p) ||
   ((List.range n).all fun i => cell? b i (n - 1 - i) == some p))

/-- GameState from models/game_state.py.  `gridSize` is the validated size
held by the GridSize value object (positive, at most 10, default 3); the
helper components (board, validator, win checker) all share it. -/
structure GameState where
  gridSize : Nat
  board : List (List Player)
  current_player : Player
  status : GameStatus
  winner : Option Player
  move_history : List Move
deriving DecidableEq

/-- GameState.__init__ followed by _initialize_game_components and
_initialize_game_state: empty board, player X, IN_PROGRESS, no winner,
empty history. -/
def GameState.init (n : Nat) : GameState :=
  { gridSize := n
    board := createEmptyBoard n
    current_player := Player.X
    status := GameStatus.IN_PROGRESS
    winner := none
    move_history := [] }

/-- GameState built from a validated GridSize value object. -/
def GameState.ofGridSize (g : GridSize) : GameState :=
  GameState.init g.size.toNat

/-- GameState.reset_to_initial_state: _initialize_game_state plus
GameBoard.reset_board. -/
def reset_to_initial_state (s : GameState) : GameState :=
  { s with
    board := createEmptyBoard s.gridSize
    current_player := Player.X
    status := GameStatus.IN_PROGRESS
    winner := none
    move_history := [] }

/-- GameState.is_valid_move: game in progress and the target cell empty
(is_cell_empty also performs the bounds check). -/
def is_valid_move (s : GameState) (c : GridCoordinate) : Bool :=
  (s.status == GameStatus.IN_PROGRESS) && is_cell_empty s.gridSize s.board c

/-- GameState._place_current_player_move: place the symbol on the board and
append the Move record to the history. -/
def place_current_player_move (s : GameState) (c : GridCoordinate) : GameState :=
  { s with
    board := place_move s.board c s.current_player
    move_history := s.move_history ++ [⟨c, s.current_player⟩] }

/-- GameState._check_for_game_completion: the winner check runs first; only
when it reports no winner is is_board_full consulted for a TIE.  `none`
models an IndexError escaping from WinChecker. -/
def check_for_game_completion (s : GameState) : Option GameState :=
  match check_for_winner s.gridSize s.board with
  | none => none
  | some (some w) =>
    some { s with
           winner := some w
           status := if w == Player.X then GameStatus.X_WINS else GameStatus.O_WINS }
  | some none =>
    if is_board_full s.gridSize s.board then some { s with status := GameStatus.TIE }
    else some s

/-- GameState._switch_to_next_player_if_game_continues. -/
def switch_to_next_player_if_game_continues (s : GameState) : GameState :=
  if s.status == GameStatus.IN_PROGRESS then
    { s with current_player := if s.current_player == Player.X then Player.O else Player.X }
  else s

/-- GameState.execute_move: reject invalid moves with no state change,
otherwise place, check completion, switch player, and report success.
The boolean is the Python return value; `none` models an IndexError
propagating out of the call. -/
def execute_move (s : GameState) (c : GridCoordinate) : Option (GameState × Bool) :=
  if is_valid_move s c then
    match check_for_game_completion (place_current_player_move s c) with
    | none => none
    | some s2 => some (switch_to_next_player_if_game_continues s2, true)
  else some (s, false)

/-- MoveExecutor._create_success_message. -/
def create_success_message (s : GameState) : String :=
  if s.status == GameStatus.IN_PROGRESS then "Move successful: " ++ s.current_player.pname
  else "Move successful: Game ended"

/-- MoveExecutor.attempt_move: reject when the game is finished, then when
the move is invalid, otherwise delegate to execute_move. -/
def attempt_move (s : GameState) (c : GridCoordinate) :
    Option (GameState × Bool × String) :=
  if s.status != GameStatus.IN_PROGRESS then
    some (s, false, "Game is already finished")
  else if !(is_valid_move s c) then
    some (s, false, "Invalid move: cell is occupied or out of bounds")
  else
    match execute_move s c with
    | none => none
    | some (s2, true) => some (s2, true, create_success_message s2)
    | some (s2, false) => some (s2, false, "Failed to make move")

/-- GameService.is_game_over: `status != IN_PROGRESS`. -/
def is_game_over (s : GameState) : Bool :=
  s.status != GameStatus.IN_PROGRESS

/-- GameService.can_restart: delegates to is_game_over. -/
def can_restart (s : GameState) : Bool :=
  is_game_over s

namespace GameService

/-- GameService.start_new_game: resets the held GameState unconditionally
and returns it. -/
def start_new_game (s : GameState) : GameState :=
  reset_to_initial_state s

end GameService

/-- States reachable from a freshly constructed GameState of size `n` by
executing moves (accepted or rejected) and resets.  Steps on which the
Python code raises (the `none` results) produce no new state. -/
inductive Reachable (n : Nat) : GameState → Prop where
  | init : Reachable n (GameState.init n)
  | move (s s' : GameState) (c : GridCoordinate) (ok : Bool) :
      Reachable n s → execute_move s c = some (s', ok) → Reachable n s'
  | reset (s : GameState) : Reachable n s → Reachable n (reset_to_initial_state s)

/-- Fold execute_move over a list of coordinates, keeping the previous
state when the move raises. -/
def applyMoves (s : GameState) (cs : List GridCoordinate) : GameState :=
  match cs with
  | [] => s
  | c :: rest =>
    match execute_move s c with
    | some (s', _) => applyMoves s' rest
    | none => applyMoves s rest

/-- Well-formedness of a board: an n x n matrix, as produced by
GameBoard._create_empty_board and preserved by place_move. -/
def boardShaped (n : Nat) (b : List (List Player)) : Prop :=
  b.length = n ∧ ∀ row ∈ b, row.length = n

instance (n : Nat) (b : List (List Player)) : Decidable (boardShaped n b) := by
  unfold boardShaped; infer_instance

/-- Number of board cells holding a value other than Player.NONE (the
measure used by the log-cardinality invariant). -/
def countNonNone (b : List (List Player)) : Nat :=
  (b.map fun row => row.countP fun p => p != Player.NONE).sum

/-- The player who makes the k-th move (0-based) in a game that starts
with X and alternates strictly. -/
def parityPlayer (k : Nat) : Player :=
  if k % 2 = 0 then Player.X else Player.O

/-- The strictly alternating sequence X, O, X, ... of length k. -/
def alternatingPlayers (k : Nat) : List Player :=
  (List.range k).map parityPlayer

theorem alternatingPlayers_succ (k : Nat) :
    alternatingPlayers (k + 1) = alternatingPlayers k ++ [parityPlayer k] := by
  simp [alternatingPlayers, List.range_succ]

theorem parityPlayer_flip (k : Nat) :
    (if parityPlayer k == Player.X then Player.O else Player.X) = parityPlayer (k + 1) := by
  have h2 : k % 2 = 0 ∨ k % 2 = 1 := by omega
  rcases h2 with h | h <;> simp [parityPlayer, h, Nat.add_mod]

theorem parityPlayer_ne_none (k : Nat) : parityPlayer k ≠ Player.NONE := by
  unfold parityPlayer; split <;> simp

theorem boardShaped_empty (n : Nat) : boardShaped n (createEmptyBoard n) := by
  constructor
  · simp [createEmptyBoard]
  · intro row hrow
    have := List.eq_of_mem_replicate hrow
    simp [this]

theorem countNonNone_empty (n : Nat) : countNonNone (createEmptyBoard n) = 0 := by
  unfold countNonNone createEmptyBoard
  rw [List.map_replicate]
  have h0 : (List.replicate n Player.NONE).countP (fun p => p != Player.NONE) = 0 := by
    simp [List.countP_eq_zero]
  rw [h0]
  simp [List.sum_replicate]

theorem countP_set_of_get? (l : List Player) (c : Nat) (old x : Player)
    (pred : Player → Bool) (h : l.get? c = some old) :
    (l.set c x).countP pred + (if pred old then 1 else 0) =
      l.countP pred + (if pred x then 1 else 0) := by
  induction l generalizing c with
  | nil => simp at h
  | cons hd tl ih =>
    cases c with
    | zero =>
      simp only [List.get?_cons_zero, Option.some.injEq] at h
      subst h
      simp only [List.set_cons_zero, List.countP_cons]
      omega
    | succ m =>
      simp only [List.get?_cons_succ] at h
      have hm := ih m h
      simp only [List.set_cons_succ, List.countP_cons]
      omega

theorem sum_map_set (f : List Player → Nat) (b : List (List Player)) (r : Nat)
    (row row' : List Player) (h : b.get? r = some row) :
    ((b.set r row').map f).sum + f row = (b.map f).sum + f row' := by
  induction b generalizing r with
  | nil => simp at h
  | cons hd tl ih =>
    cases r with
    | zero =>
      simp only [List.get?_cons_zero, Option.some.injEq] at h
      subst h
      simp only [List.set_cons_zero, List.map_cons, List.sum_cons]
      omega
    | succ m =>
      simp only [List.get?_cons_succ] at h
      have hm := ih m h
      simp only [List.set_cons_succ, List.map_cons, List.sum_cons]
      omega

theorem countNonNone_place (b : List (List Player)) (r c : Nat) (row : List Player)
    (p : Player) (hrow : b.get? r = some row) (hcell : row.get? c = some Player.NONE)
    (hp : p ≠ Player.NONE) :
    countNonNone (b.set r (row.set c p)) = countNonNone b + 1 := by
  unfold countNonNone
  have h1 := countP_set_of_get? row c Player.NONE p (fun q => q != Player.NONE) hcell
  have h2 := sum_map_set (fun rw0 => rw0.countP fun q => q != Player.NONE) b r row
    (row.set c p) hrow
  have hpredp : (p != Player.NONE) = true := by simpa using hp
  simp [hpredp] at h1
  simp only at h2
  omega

theorem mem_of_get?_eq_some {α : Type} {l : List α} {n : Nat} {a : α}
    (h : l.get? n = some a) : a ∈ l := by
  induction l generalizing n with
  | nil => simp at h
  | cons hd tl ih =>
    cases n with
    | zero =>
      simp only [List.get?_cons_zero, Option.some.injEq] at h
      simp [h]
    | succ m =>
      simp only [List.get?_cons_succ] at h
      exact List.mem_cons_of_mem _ (ih h)

theorem boardShaped_place (n : Nat) (b : List (List Player)) (c : GridCoordinate)
    (p : Player) (hb : boardShaped n b) : boardShaped n (place_move b c p) := by
  unfold place_move
  cases hrow : b.get? c.row.toNat with
  | none => exact hb
  | some row =>
    obtain ⟨hlen, hrows⟩ := hb
    refine ⟨by simp [hlen], ?_⟩
    intro r hr
    rcases List.mem_or_eq_of_mem_set hr with h | h
    · exact hrows r h
    · subst h
      simp only [List.length_set]
      exact hrows row (mem_of_get?_eq_some hrow)

theorem cell?_isSome_of_shaped {n : Nat} {b : List (List Player)} (hb : boardShaped n b)
    {r c : Nat} (hr : r < n) (hc : c < n) : ∃ p, cell? b r c = some p := by
  obtain ⟨hlen, hrows⟩ := hb
  have hr' : r < b.length := by omega
  obtain ⟨row, hrow⟩ : ∃ row, b.get? r = some row := by
    rw [List.get?_eq_get hr']
    exact ⟨_, rfl⟩
  have hrowlen : row.length = n := hrows row (mem_of_get?_eq_some hrow)
  have hc' : c < row.length := by omega
  obtain ⟨p, hp⟩ : ∃ p, row.get? c = some p := by
    rw [List.get?_eq_get hc']
    exact ⟨_, rfl⟩
  refine ⟨p, ?_⟩
  unfold cell?
  rw [hrow]
  exact hp

theorem isWinningLine_iff (x y z : Player) :
    isWinningLine x y z = true ↔ x = y ∧ y = z ∧ z ≠ Player.NONE := by
  simp [isWinningLine, and_assoc]

theorem isWinningLine_self (p : Player) (hp : p ≠ Player.NONE) :
    isWinningLine p p p = true := by
  rw [isWinningLine_iff]
  exact ⟨rfl, rfl, hp⟩

theorem checkRowsAux_some_some (b : List (List Player)) (rs : List Nat) (w : Player)
    (h : checkRowsAux b rs = some (some w)) :
    ∃ r ∈ rs, cell? b r 0 = some w ∧ cell? b r 1 = some w ∧ cell? b r 2 = some w ∧
      w ≠ Player.NONE := by
  induction rs with
  | nil => simp [checkRowsAux] at h
  | cons r rest ih =>
    rw [checkRowsAux] at h
    split at h
    · rename_i x y z h0 h1 h2
      split at h
      · rename_i hwin
        obtain ⟨hxy, hyz, hz⟩ := (isWinningLine_iff x y z).mp hwin
        have hxw : x = w := by simpa using h
        subst hxw
        refine ⟨r, List.mem_cons_self r rest, ?_, ?_, ?_, ?_⟩
        · exact h0
        · rw [h1, hxy]
        · rw [h2, hxy, hyz]
        · rw [hxy, hyz]; exact hz
      · obtain ⟨r', hr', hc⟩ := ih h
        exact ⟨r', List.mem_cons_of_mem r hr', hc⟩
    · simp at h

theorem checkRowsAux_some_none (b : List (List Player)) (rs : List Nat)
    (h : checkRowsAux b rs = some none) :
    ∀ r ∈ rs, ∀ x y z, cell? b r 0 = some x → cell? b r 1 = some y →
      cell? b r 2 = some z → isWinningLine x y z = false := by
  induction rs with
  | nil => simp
  | cons r rest ih =>
    rw [checkRowsAux] at h
    split at h
    · rename_i x y z h0 h1 h2
      split at h
      · simp at h
      · rename_i hwin
        intro r' hr' x' y' z' h0' h1' h2'
        rcases List.mem_cons.mp hr' with he | hm
        · subst he
          have hx : x' = x := by rw [h0] at h0'; simpa using h0'.symm
          have hy : y' = y := by rw [h1] at h1'; simpa using h1'.symm
          have hz : z' = z := by rw [h2] at h2'; simpa using h2'.symm
          subst hx; subst hy; subst hz
          simpa using hwin
        · exact ih h r' hm x' y' z' h0' h1' h2'
    · simp at h

theorem checkRowsAux_ne_none (b : List (List Player)) (rs : List Nat)
    (hcells : ∀ r ∈ rs, (cell? b r 0).isSome ∧ (cell? b r 1).isSome ∧ (cell? b r 2).isSome) :
    checkRowsAux b rs ≠ none := by
  induction rs with
  | nil => simp [checkRowsAux]
  | cons r rest ih =>
    obtain ⟨h0, h1, h2⟩ := hcells r (List.mem_cons_self r rest)
    obtain ⟨x, hx⟩ := Option.isSome_iff_exists.mp h0
    obtain ⟨y, hy⟩ := Option.isSome_iff_exists.mp h1
    obtain ⟨z, hz⟩ := Option.isSome_iff_exists.mp h2
    rw [checkRowsAux, hx, hy, hz]
    split
    · rename_i x' y' z' hx' hy' hz'
      obtain rfl : x = x' := by simpa using hx'
      obtain rfl : y = y' := by simpa using hy'
      obtain rfl : z = z' := by simpa using hz'
      split
      · simp
      · exact ih fun r' hr' => hcells r' (List.mem_cons_of_mem r hr')
    all_goals simp_all

theorem checkColsAux_some_some (b : List (List Player)) (cs : List Nat) (w : Player)
    (h : checkColsAux b cs = some (some w)) :
    ∃ c ∈ cs, cell? b 0 c = some w ∧ cell? b 1 c = some w ∧ cell? b 2 c = some w ∧
      w ≠ Player.NONE := by
  induction cs with
  | nil => simp [checkColsAux] at h
  | cons c rest ih =>
    rw [checkColsAux] at h
    split at h
    · rename_i x y z h0 h1 h2
      split at h
      · rename_i hwin
        obtain ⟨hxy, hyz, hz⟩ := (isWinningLine_iff x y z).mp hwin
        have hxw : x = w := by simpa using h
        subst hxw
        refine ⟨c, List.mem_cons_self c rest, ?_, ?_, ?_, ?_⟩
        · exact h0
        · rw [h1, hxy]
        · rw [h2, hxy, hyz]
        · rw [hxy, hyz]; exact hz
      · obtain ⟨c', hc', hc⟩ := ih h
        exact ⟨c', List.mem_cons_of_mem c hc', hc⟩
    · simp at h

theorem checkColsAux_some_none (b : List (List Player)) (cs : List Nat)
    (h : checkColsAux b cs = some none) :
    ∀ c ∈ cs, ∀ x y z, cell? b 0 c = some x → cell? b 1 c = some y →
      cell? b 2 c = some z → isWinningLine x y z = false := by
  induction cs with
  | nil => simp
  | cons c rest ih =>
    rw [checkColsAux] at h
    split at h
    · rename_i x y z h0 h1 h2
      split at h
      · simp at h
      · rename_i hwin
        intro c' hc' x' y' z' h0' h1' h2'
        rcases List.mem_cons.mp hc' with he | hm
        · subst he
          have hx : x' = x := by rw [h0] at h0'; simpa using h0'.symm
          have hy : y' = y := by rw [h1] at h1'; simpa using h1'.symm
          have hz : z' = z := by rw [h2] at h2'; simpa using h2'.symm
          subst hx; subst hy; subst hz
          simpa using hwin
        · exact ih h c' hm x' y' z' h0' h1' h2'
    · simp at h

theorem checkColsAux_ne_none (b : List (List Player)) (cs : List Nat)
    (hcells : ∀ c ∈ cs, (cell? b 0 c).isSome ∧ (cell? b 1 c).isSome ∧ (cell? b 2 c).isSome) :
    checkColsAux b cs ≠ none := by
  induction cs with
  | nil => simp [checkColsAux]
  | cons c rest ih =>
    obtain ⟨h0, h1, h2⟩ := hcells c (List.mem_cons_self c rest)
    obtain ⟨x, hx⟩ := Option.isSome_iff_exists.mp h0
    obtain ⟨y, hy⟩ := Option.isSome_iff_exists.mp h1
    obtain ⟨z, hz⟩ := Option.isSome_iff_exists.mp h2
    rw [checkColsAux, hx, hy, hz]
    split
    · rename_i x' y' z' hx' hy' hz'
      obtain rfl : x = x' := by simpa using hx'
      obtain rfl : y = y' := by simpa using hy'
      obtain rfl : z = z' := by simpa using hz'
      split
      · simp
      · exact ih fun c' hc' => hcells c' (List.mem_cons_of_mem c hc')
    all_goals simp_all

theorem check_diagonals_some_some (b : List (List Player)) (w : Player)
    (h : check_diagonals_for_winner b = some (some w)) :
    (cell? b 0 0 = some w ∧ cell? b 1 1 = some w ∧ cell? b 2 2 = some w ∧
       w ≠ Player.NONE) ∨
    (cell? b 0 2 = some w ∧ cell? b 1 1 = some w ∧ cell? b 2 0 = some w ∧
       w ≠ Player.NONE) := by
  rw [check_diagonals_for_winner] at h
  split at h
  · rename_i x y z h0 h1 h2
    split at h
    · rename_i hwin
      obtain ⟨hxy, hyz, hz⟩ := (isWinningLine_iff x y z).mp hwin
      have hxw : x = w := by simpa using h
      subst hxw
      left
      exact ⟨h0, by rw [h1, hxy], by rw [h2, hxy, hyz], by rw [hxy, hyz]; exact hz⟩
    · split at h
      · rename_i u v w' h0' h1' h2'
        split at h
        · rename_i hwin
          obtain ⟨huv, hvw, hw⟩ := (isWinningLine_iff u v w').mp hwin
          have huw : u = w := by simpa using h
          subst huw
          right
          exact ⟨h0', by rw [h1', huv], by rw [h2', huv, hvw], by rw [huv, hvw]; exact hw⟩
        · simp at h
      · simp at h
  · simp at h

theorem check_diagonals_some_none (b : List (List Player))
    (h : check_diagonals_for_winner b = some none) :
    (∀ x y z, cell? b 0 0 = some x → cell? b 1 1 = some y → cell? b 2 2 = some z →
       isWinningLine x y z = false) ∧
    (∀ x y z, cell? b 0 2 = some x → cell? b 1 1 = some y → cell? b 2 0 = some z →
       isWinningLine x y z = false) := by
  rw [check_diagonals_for_winner] at h
  split at h
  · rename_i x y z h0 h1 h2
    split at h
    · simp at h
    · rename_i hwin1
      split at h
      · rename_i u v w' h0' h1' h2'
        split at h
        · simp at h
        · rename_i hwin2
          constructor
          · intro x' y' z' hx' hy' hz'
            have : x' = x := by rw [h0] at hx'; simpa using hx'.symm
            have : y' = y := by rw [h1] at hy'; simpa using hy'.symm
            have : z' = z := by rw [h2] at hz'; simpa using hz'.symm
            subst_vars
            simpa using hwin1
          · intro x' y' z' hx' hy' hz'
            have : x' = u := by rw [h0'] at hx'; simpa using hx'.symm
            have : y' = v := by rw [h1'] at hy'; simpa using hy'.symm
            have : z' = w' := by rw [h2'] at hz'; simpa using hz'.symm
            subst_vars
            simpa using hwin2
      · simp at h
  · simp at h

theorem check_diagonals_ne_none (b : List (List Player))
    (h00 : (cell? b 0 0).isSome) (h11 : (cell? b 1 1).isSome)
    (h22 : (cell? b 2 2).isSome) (h02 : (cell? b 0 2).isSome)
    (h20 : (cell? b 2 0).isSome) :
    check_diagonals_for_winner b ≠ none := by
  obtain ⟨x, hx⟩ := Option.isSome_iff_exists.mp h00
  obtain ⟨y, hy⟩ := Option.isSome_iff_exists.mp h11
  obtain ⟨z, hz⟩ := Option.isSome_iff_exists.mp h22
  obtain ⟨u, hu⟩ := Option.isSome_iff_exists.mp h02
  obtain ⟨v, hv⟩ := Option.isSome_iff_exists.mp h20
  rw [check_diagonals_for_winner, hx, hy, hz, hu, hv]
  split
  · rename_i x' y' z' hx' hy' hz'
    split
    · simp
    · split
      · rename_i u' v' w' hu' hv' hw'
        split <;> simp
      · rename_i hne
        exact (hne u y v rfl rfl rfl).elim
  · rename_i hne
    exact (hne x y z rfl rfl rfl).elim

theorem check_for_winner_some_some (n : Nat) (b : List (List Player)) (w : Player)
    (h : check_for_winner n b = some (some w)) :
    w ≠ Player.NONE ∧
    ((∃ r ∈ List.range n, cell? b r 0 = some w ∧ cell? b r 1 = some w ∧
        cell? b r 2 = some w) ∨
     (∃ c ∈ List.range n, cell? b 0 c = some w ∧ cell? b 1 c = some w ∧
        cell? b 2 c = some w) ∨
     (cell? b 0 0 = some w ∧ cell? b 1 1 = some w ∧ cell? b 2 2 = some w) ∨
     (cell? b 0 2 = some w ∧ cell? b 1 1 = some w ∧ cell? b 2 0 = some w)) := by
  rw [check_for_winner] at h
  split at h
  · simp at h
  · rename_i w' hrows
    have hw : w' = w := by simpa using h
    subst hw
    obtain ⟨r, hr, h0, h1, h2, hne⟩ := checkRowsAux_some_some b (List.range n) w' hrows
    exact ⟨hne, Or.inl ⟨r, hr, h0, h1, h2⟩⟩
  · rename_i hrows
    split at h
    · simp at h
    · rename_i w' hcols
      have hw : w' = w := by simpa using h
      subst hw
      obtain ⟨c, hc, h0, h1, h2, hne⟩ := checkColsAux_some_some b (List.range n) w' hcols
      exact ⟨hne, Or.inr (Or.inl ⟨c, hc, h0, h1, h2⟩)⟩
    · rename_i hcols
      rcases check_diagonals_some_some b w h with ⟨h0, h1, h2, hne⟩ | ⟨h0, h1, h2, hne⟩
      · exact ⟨hne, Or.inr (Or.inr (Or.inl ⟨h0, h1, h2⟩))⟩
      · exact ⟨hne, Or.inr (Or.inr (Or.inr ⟨h0, h1, h2⟩))⟩

theorem check_for_winner_some_none (n : Nat) (b : List (List Player))
    (h : check_for_winner n b = some none) :
    (∀ r ∈ List.range n, ∀ x y z, cell? b r 0 = some x → cell? b r 1 = some y →
       cell? b r 2 = some z → isWinningLine x y z = false) ∧
    (∀ c ∈ List.range n, ∀ x y z, cell? b 0 c = some x → cell? b 1 c = some y →
       cell? b 2 c = some z → isWinningLine x y z = false) ∧
    (∀ x y z, cell? b 0 0 = some x → cell? b 1 1 = some y → cell? b 2 2 = some z →
       isWinningLine x y z = false) ∧
    (∀ x y z, cell? b 0 2 = some x → cell? b 1 1 = some y → cell? b 2 0 = some z →
       isWinningLine x y z = false) := by
  rw [check_for_winner] at h
  split at h
  · simp at h
  · simp at h
  · rename_i hrows
    split at h
    · simp at h
    · simp at h
    · rename_i hcols
      obtain ⟨hd1, hd2⟩ := check_diagonals_some_none b h
      exact ⟨checkRowsAux_some_none b (List.range n) hrows,
             checkColsAux_some_none b (List.range n) hcols, hd1, hd2⟩

theorem check_for_winner_ne_none {n : Nat} {b : List (List Player)} (h3 : 3 ≤ n)
    (hb : boardShaped n b) : check_for_winner n b ≠ none := by
  have hcell : ∀ r c : Nat, r < n → c < n → (cell? b r c).isSome := by
    intro r c hr hc
    obtain ⟨p, hp⟩ := cell?_isSome_of_shaped hb hr hc
    simp [hp]
  have hrows : checkRowsAux b (List.range n) ≠ none := by
    apply checkRowsAux_ne_none
    intro r hr
    have hrn : r < n := List.mem_range.mp hr
    exact ⟨hcell r 0 hrn (by omega), hcell r 1 hrn (by omega), hcell r 2 hrn (by omega)⟩
  have hcols : checkColsAux b (List.range n) ≠ none := by
    apply checkColsAux_ne_none
    intro c hc
    have hcn : c < n := List.mem_range.mp hc
    exact ⟨hcell 0 c (by omega) hcn, hcell 1 c (by omega) hcn, hcell 2 c (by omega) hcn⟩
  have hdiag : check_diagonals_for_winner b ≠ none :=
    check_diagonals_ne_none b (hcell 0 0 (by omega) (by omega)) (hcell 1 1 (by omega) (by omega))
      (hcell 2 2 (by omega) (by omega)) (hcell 0 2 (by omega) (by omega))
      (hcell 2 0 (by omega) (by omega))
  rw [check_for_winner]
  split
  · rename_i hr
    exact absurd (by rw [check_rows_for_winner] at hr; exact hr) hrows
  · simp
  · split
    · rename_i hc
      exact absurd (by rw [check_columns_for_winner] at hc; exact hc) hcols
    · simp
    · exact hdiag

theorem spec3_of_row {b : List (List Player)} {w : Player} (r : Nat) (hr : r < 3)
    (h0 : cell? b r 0 = some w) (h1 : cell? b r 1 = some w)
    (h2 : cell? b r 2 = some w) (hw : w ≠ Player.NONE) :
    specCompleteLine 3 b w = true := by
  simp only [specCompleteLine, Bool.and_eq_true, Bool.or_eq_true, List.any_eq_true,
    List.all_eq_true, List.mem_range, beq_iff_eq, bne_iff_ne, ne_eq]
  refine ⟨hw, Or.inl (Or.inl (Or.inl ⟨r, hr, ?_⟩))⟩
  intro c hc
  interval_cases c <;> assumption

theorem spec3_of_col {b : List (List Player)} {w : Player} (c : Nat) (hc : c < 3)
    (h0 : cell? b 0 c = some w) (h1 : cell? b 1 c = some w)
    (h2 : cell? b 2 c = some w) (hw : w ≠ Player.NONE) :
    specCompleteLine 3 b w = true := by
  simp only [specCompleteLine, Bool.and_eq_true, Bool.or_eq_true, List.any_eq_true,
    List.all_eq_true, List.mem_range, beq_iff_eq, bne_iff_ne, ne_eq]
  refine ⟨hw, Or.inl (Or.inl (Or.inr ⟨c, hc, ?_⟩))⟩
  intro r hr
  interval_cases r <;> assumption

theorem spec3_of_diag {b : List (List Player)} {w : Player}
    (h0 : cell? b 0 0 = some w) (h1 : cell? b 1 1 = some w)
    (h2 : cell? b 2 2 = some w) (hw : w ≠ Player.NONE) :
    specCompleteLine 3 b w = true := by
  simp only [specCompleteLine, Bool.and_eq_true, Bool.or_eq_true, List.any_eq_true,
    List.all_eq_true, List.mem_range, beq_iff_eq, bne_iff_ne, ne_eq]
  refine ⟨hw, Or.inl (Or.inr ?_)⟩
  intro i hi
  interval_cases i <;> assumption

theorem spec3_of_anti {b : List (List Player)} {w : Player}
    (h0 : cell? b 0 2 = some w) (h1 : cell? b 1 1 = some w)
    (h2 : cell? b 2 0 = some w) (hw : w ≠ Player.NONE) :
    specCompleteLine 3 b w = true := by
  simp only [specCompleteLine, Bool.and_eq_true, Bool.or_eq_true, List.any_eq_true,
    List.all_eq_true, List.mem_range, beq_iff_eq, bne_iff_ne, ne_eq]
  refine ⟨hw, Or.inr ?_⟩
  intro i hi
  interval_cases i
  · exact h0
  · exact h1
  · exact h2

theorem spec3_elim {b : List (List Player)} {p : Player}
    (h : specCompleteLine 3 b p = true) :
    p ≠ Player.NONE ∧
    ((∃ r, r < 3 ∧ cell? b r 0 = some p ∧ cell? b r 1 = some p ∧
        cell? b r 2 = some p) ∨
     (∃ c, c < 3 ∧ cell? b 0 c = some p ∧ cell? b 1 c = some p ∧
        cell? b 2 c = some p) ∨
     (cell? b 0 0 = some p ∧ cell? b 1 1 = some p ∧ cell? b 2 2 = some p) ∨
     (cell? b 0 2 = some p ∧ cell? b 1 1 = some p ∧ cell? b 2 0 = some p)) := by
  simp only [specCompleteLine, Bool.and_eq_true, Bool.or_eq_true, List.any_eq_true,
    List.all_eq_true, List.mem_range, beq_iff_eq, bne_iff_ne, ne_eq] at h
  obtain ⟨hp, hline⟩ := h
  refine ⟨hp, ?_⟩
  rcases hline with ((⟨r, hr, hall⟩ | ⟨c, hc, hall⟩) | hall) | hall
  · exact Or.inl ⟨r, hr, hall 0 (by omega), hall 1 (by omega), hall 2 (by omega)⟩
  · exact Or.inr (Or.inl ⟨c, hc, hall 0 (by omega), hall 1 (by omega), hall 2 (by omega)⟩)
  · exact Or.inr (Or.inr (Or.inl ⟨hall 0 (by omega), hall 1 (by omega), hall 2 (by omega)⟩))
  · exact Or.inr (Or.inr (Or.inr ⟨hall 0 (by omega), hall 1 (by omega), hall 2 (by omega)⟩))

theorem cfw3_winner_spec {b : List (List Player)} {w : Player}
    (h : check_for_winner 3 b = some (some w)) :
    w ≠ Player.NONE ∧ specCompleteLine 3 b w = true := by
  obtain ⟨hwne, hcase⟩ := check_for_winner_some_some 3 b w h
  refine ⟨hwne, ?_⟩
  rcases hcase with ⟨r, hr, h0, h1, h2⟩ | ⟨c, hc, h0, h1, h2⟩ | ⟨h0, h1, h2⟩ | ⟨h0, h1, h2⟩
  · exact spec3_of_row r (List.mem_range.mp hr) h0 h1 h2 hwne
  · exact spec3_of_col c (List.mem_range.mp hc) h0 h1 h2 hwne
  · exact spec3_of_diag h0 h1 h2 hwne
  · exact spec3_of_anti h0 h1 h2 hwne

theorem cfw3_none_no_spec {b : List (List Player)}
    (h : check_for_winner 3 b = some none) :
    ∀ p, specCompleteLine 3 b p = false := by
  intro p
  by_contra hp
  have hp' : specCompleteLine 3 b p = true := by
    cases hsp : specCompleteLine 3 b p
    · exact absurd hsp hp
    · rfl
  obtain ⟨hpne, hcase⟩ := spec3_elim hp'
  obtain ⟨hrows, hcols, hdiag, hanti⟩ := check_for_winner_some_none 3 b h
  have hwin := isWinningLine_self p hpne
  rcases hcase with ⟨r, hr, h0, h1, h2⟩ | ⟨c, hc, h0, h1, h2⟩ | ⟨h0, h1, h2⟩ | ⟨h0, h1, h2⟩
  · have := hrows r (List.mem_range.mpr hr) p p p h0 h1 h2
    rw [hwin] at this
    exact Bool.noConfusion this
  · have := hcols c (List.mem_range.mpr hc) p p p h0 h1 h2
    rw [hwin] at this
    exact Bool.noConfusion this
  · have := hdiag p p p h0 h1 h2
    rw [hwin] at this
    exact Bool.noConfusion this
  · have := hanti p p p h0 h1 h2
    rw [hwin] at this
    exact Bool.noConfusion this

theorem cfw3_none_iff {b : List (List Player)} (hb : boardShaped 3 b) :
    check_for_winner 3 b = some none ↔ ∀ p, specCompleteLine 3 b p = false := by
  constructor
  · exact cfw3_none_no_spec
  · intro hall
    cases hcw : check_for_winner 3 b with
    | none => exact absurd hcw (check_for_winner_ne_none (le_refl 3) hb)
    | some o =>
      cases o with
      | none => rfl
      | some w =>
        obtain ⟨hwne, hspec⟩ := cfw3_winner_spec hcw
        rw [hall w] at hspec
        exact Bool.noConfusion hspec

theorem is_valid_move_iff (s : GameState) (c : GridCoordinate) :
    is_valid_move s c = true ↔
      s.status = GameStatus.IN_PROGRESS ∧
      0 ≤ c.row ∧ c.row < (s.gridSize : Int) ∧
      0 ≤ c.col ∧ c.col < (s.gridSize : Int) ∧
      cell? s.board c.row.toNat c.col.toNat = some Player.NONE := by
  simp [is_valid_move, is_cell_empty, GridCoordinate.is_valid_for_grid, and_assoc]

theorem cell?_eq_some_iff {b : List (List Player)} {r c : Nat} {p : Player} :
    cell? b r c = some p ↔ ∃ row, b.get? r = some row ∧ row.get? c = some p := by
  unfold cell?
  cases h : b.get? r <;> simp

theorem place_move_eq {b : List (List Player)} {c : GridCoordinate} {p : Player}
    {row : List Player} (hrow : b.get? c.row.toNat = some row) :
    place_move b c p = b.set c.row.toNat (row.set c.col.toNat p) := by
  unfold place_move
  rw [hrow]

@[simp] theorem pcp_board (s : GameState) (c : GridCoordinate) :
    (place_current_player_move s c).board = place_move s.board c s.current_player := rfl

@[simp] theorem pcp_hist (s : GameState) (c : GridCoordinate) :
    (place_current_player_move s c).move_history =
      s.move_history ++ [⟨c, s.current_player⟩] := rfl

@[simp] theorem pcp_player (s : GameState) (c : GridCoordinate) :
    (place_current_player_move s c).current_player = s.current_player := rfl

@[simp] theorem pcp_status (s : GameState) (c : GridCoordinate) :
    (place_current_player_move s c).status = s.status := rfl

@[simp] theorem pcp_size (s : GameState) (c : GridCoordinate) :
    (place_current_player_move s c).gridSize = s.gridSize := rfl

theorem switch_of_not_in_progress {s : GameState}
    (h : s.status ≠ GameStatus.IN_PROGRESS) :
    switch_to_next_player_if_game_continues s = s := by
  unfold switch_to_next_player_if_game_continues
  rw [if_neg]
  simpa using h

theorem switch_of_in_progress {s : GameState} (h : s.status = GameStatus.IN_PROGRESS) :
    switch_to_next_player_if_game_continues s =
      { s with current_player :=
          if s.current_player == Player.X then Player.O else Player.X } := by
  unfold switch_to_next_player_if_game_continues
  rw [if_pos]
  simpa using h

/-- The invariant carried by every reachable GameState. -/
structure Inv (n : Nat) (s : GameState) : Prop where
  size_eq : s.gridSize = n
  shape : boardShaped n s.board
  log_count : s.move_history.length = countNonNone s.board
  alt : s.move_history.map Move.player = alternatingPlayers s.move_history.length
  cur_ne : s.current_player ≠ Player.NONE
  cur_parity : s.status = GameStatus.IN_PROGRESS →
    s.current_player = parityPlayer s.move_history.length
  tie_full : s.status = GameStatus.TIE →
    is_board_full n s.board = true ∧ check_for_winner n s.board = some none

theorem inv_init (n : Nat) : Inv n (GameState.init n) := by
  refine ⟨rfl, boardShaped_empty n, ?_, rfl, by simp [GameState.init], ?_, ?_⟩
  · simp [GameState.init, countNonNone_empty]
  · intro _
    simp [GameState.init, parityPlayer]
  · intro h
    simp [GameState.init] at h

theorem inv_reset {n : Nat} {s : GameState} (h : Inv n s) :
    Inv n (reset_to_initial_state s) := by
  have hsz : s.gridSize = n := h.size_eq
  refine ⟨hsz, ?_, ?_, rfl, by simp [reset_to_initial_state], ?_, ?_⟩
  · simpa [reset_to_initial_state, hsz] using boardShaped_empty n
  · simp [reset_to_initial_state, hsz, countNonNone_empty]
  · intro _
    simp [reset_to_initial_state, parityPlayer]
  · intro hTie
    simp [reset_to_initial_state] at hTie

theorem inv_execute {n : Nat} {s s' : GameState} {c : GridCoordinate} {ok : Bool}
    (hInv : Inv n s) (h : execute_move s c = some (s', ok)) : Inv n s' := by
  unfold execute_move at h
  by_cases hv : is_valid_move s c = true
  case neg =>
    rw [if_neg hv] at h
    simp only [Option.some.injEq, Prod.mk.injEq] at h
    obtain ⟨h1, -⟩ := h
    rw [← h1]
    exact hInv
  case pos =>
    rw [if_pos hv] at h
    obtain ⟨hstat, hr0, hrn, hc0, hcn, hcell⟩ := (is_valid_move_iff s c).mp hv
    obtain ⟨row, hrow, hcellrow⟩ := cell?_eq_some_iff.mp hcell
    have hplace := place_move_eq (p := s.current_player) hrow
    cases hcomp : check_for_game_completion (place_current_player_move s c) with
    | none =>
      rw [hcomp] at h
      exact absurd h (by simp)
    | some s2 =>
      rw [hcomp] at h
      simp only [Option.some.injEq, Prod.mk.injEq] at h
      obtain ⟨hs', -⟩ := h
      -- facts about the intermediate state after placing
      have hshape1 : boardShaped n (place_current_player_move s c).board := by
        rw [pcp_board]
        exact boardShaped_place n s.board c s.current_player hInv.shape
      have hcount1 : countNonNone (place_current_player_move s c).board =
          countNonNone s.board + 1 := by
        rw [pcp_board, hplace]
        exact countNonNone_place s.board c.row.toNat c.col.toNat row s.current_player
          hrow hcellrow hInv.cur_ne
      have hlog1 : (place_current_player_move s c).move_history.length =
          countNonNone (place_current_player_move s c).board := by
        rw [pcp_hist, hcount1, List.length_append, List.length_singleton, hInv.log_count]
      have halt1 : (place_current_player_move s c).move_history.map Move.player =
          alternatingPlayers (place_current_player_move s c).move_history.length := by
        rw [pcp_hist, List.length_append, List.length_singleton, List.map_append,
          alternatingPlayers_succ, hInv.alt]
        simp [hInv.cur_parity hstat]
      -- completion analysis
      rw [check_for_game_completion] at hcomp
      cases hw : check_for_winner (place_current_player_move s c).gridSize
          (place_current_player_move s c).board with
      | none =>
        rw [hw] at hcomp
        exact absurd hcomp (by simp)
      | some o =>
        rw [hw] at hcomp
        cases o with
        | some w =>
          simp only [Option.some.injEq] at hcomp
          have hstat2 : s2.status ≠ GameStatus.IN_PROGRESS ∧ s2.status ≠ GameStatus.TIE := by
            rw [← hcomp]
            cases hwx : (w == Player.X) <;> simp
          have hswitch : s' = s2 := by
            rw [← hs']
            exact switch_of_not_in_progress hstat2.1
          subst hswitch
          refine ⟨?_, ?_, ?_, ?_, ?_, ?_, ?_⟩
          · rw [← hcomp]
            exact hInv.size_eq
          · rw [← hcomp]
            exact hshape1
          · rw [← hcomp]
            exact hlog1
          · rw [← hcomp]
            exact halt1
          · rw [← hcomp]
            exact hInv.cur_ne
          · intro hP
            exact absurd hP hstat2.1
          · intro hT
            exact absurd hT hstat2.2
        | none =>
          by_cases hfull : is_board_full (place_current_player_move s c).gridSize
              (place_current_player_move s c).board = true
          · rw [if_pos hfull] at hcomp
            simp only [Option.some.injEq] at hcomp
            have hstat2 : s2.status = GameStatus.TIE := by rw [← hcomp]
            have hswitch : s' = s2 := by
              rw [← hs']
              exact switch_of_not_in_progress (by rw [hstat2]; simp)
            subst hswitch
            refine ⟨?_, ?_, ?_, ?_, ?_, ?_, ?_⟩
            · rw [← hcomp]
              exact hInv.size_eq
            · rw [← hcomp]
              exact hshape1
            · rw [← hcomp]
              exact hlog1
            · rw [← hcomp]
              exact halt1
            · rw [← hcomp]
              exact hInv.cur_ne
            · intro hP
              rw [hstat2] at hP
              exact absurd hP (by simp)
            · intro _
              constructor
              · rw [← hcomp]
                have := hfull
                rwa [pcp_size, hInv.size_eq] at this
              · rw [← hcomp]
                have := hw
                rwa [pcp_size, hInv.size_eq] at this
          · rw [if_neg hfull] at hcomp
            simp only [Option.some.injEq] at hcomp
            have hstat2 : s2.status = GameStatus.IN_PROGRESS := by
              rw [← hcomp, pcp_status, hstat]
            have hs'' : s' = { s2 with current_player :=
                if s2.current_player == Player.X then Player.O else Player.X } := by
              rw [← hs']
              exact switch_of_in_progress hstat2
            subst hs''
            have hcur2 : s2.current_player = s.current_player := by
              rw [← hcomp, pcp_player]
            refine ⟨?_, ?_, ?_, ?_, ?_, ?_, ?_⟩
            · show s2.gridSize = n
              rw [← hcomp, pcp_size]
              exact hInv.size_eq
            · show boardShaped n s2.board
              rw [← hcomp]
              exact hshape1
            · show s2.move_history.length = countNonNone s2.board
              rw [← hcomp]
              exact hlog1
            · show s2.move_history.map Move.player =
                alternatingPlayers s2.move_history.length
              rw [← hcomp]
              exact halt1
            · show (if s2.current_player == Player.X then Player.O else Player.X) ≠
                Player.NONE
              cases hx : (s2.current_player == Player.X) <;> simp
            · intro _
              show (if s2.current_player == Player.X then Player.O else Player.X) =
                parityPlayer s2.move_history.length
              have hlen2 : s2.move_history.length = s.move_history.length + 1 := by
                rw [← hcomp, pcp_hist, List.length_append, List.length_singleton]
              rw [hcur2, hlen2, hInv.cur_parity hstat]
              exact parityPlayer_flip s.move_history.length
            · intro hT
              rw [show ({ s2 with current_player :=
                  if s2.current_player == Player.X then Player.O else Player.X } :
                    GameState).status = s2.status from rfl, hstat2] at hT
              exact absurd hT (by simp)

theorem reachable_inv {n : Nat} {s : GameState} (h : Reachable n s) : Inv n s := by
  induction h with
  | init => exact inv_init n
  | move s1 s2 c ok _ heq ih => exact inv_execute ih heq
  | reset s1 _ ih => exact inv_reset ih

theorem reachable_applyMoves (n : Nat) (s : GameState) (cs : List GridCoordinate)
    (h : Reachable n s) : Reachable n (applyMoves s cs) := by
  induction cs generalizing s with
  | nil => exact h
  | cons c rest ih =>
    rw [applyMoves]
    cases heq : execute_move s c with
    | none => exact ih s h
    | some p => exact ih p.1 (Reachable.move s p.1 c p.2 h (by rw [heq]))

@[simp] theorem switch_board (s : GameState) :
    (switch_to_next_player_if_game_continues s).board = s.board := by
  unfold switch_to_next_player_if_game_continues
  split <;> rfl

@[simp] theorem switch_status (s : GameState) :
    (switch_to_next_player_if_game_continues s).status = s.status := by
  unfold switch_to_next_player_if_game_continues
  split <;> rfl

@[simp] theorem switch_size (s : GameState) :
    (switch_to_next_player_if_game_continues s).gridSize = s.gridSize := by
  unfold switch_to_next_player_if_game_continues
  split <;> rfl

@[simp] theorem switch_hist (s : GameState) :
    (switch_to_next_player_if_game_continues s).move_history = s.move_history := by
  unfold switch_to_next_player_if_game_continues
  split <;> rfl

@[simp] theorem switch_winner (s : GameState) :
    (switch_to_next_player_if_game_continues s).winner = s.winner := by
  unfold switch_to_next_player_if_game_continues
  split <;> rfl

theorem completion_fields {s s2 : GameState}
    (h : check_for_game_completion s = some s2) :
    s2.current_player = s.current_player ∧ s2.board = s.board ∧
    s2.gridSize = s.gridSize ∧ s2.move_history = s.move_history := by
  unfold check_for_game_completion at h
  split at h
  · exact absurd h (by simp)
  · simp only [Option.some.injEq] at h
    rw [← h]
    exact ⟨rfl, rfl, rfl, rfl⟩
  · split at h <;> (simp only [Option.some.injEq] at h; rw [← h]; exact ⟨rfl, rfl, rfl, rfl⟩)

theorem completion_of_winner {s s2 : GameState} {w : Player}
    (h : check_for_game_completion s = some s2)
    (hw : check_for_winner s.gridSize s.board = some (some w)) :
    s2.status = (if w == Player.X then GameStatus.X_WINS else GameStatus.O_WINS) := by
  unfold check_for_game_completion at h
  rw [hw] at h
  simp only [Option.some.injEq] at h
  rw [← h]

theorem execute_move_accepted {s s' : GameState} {c : GridCoordinate}
    (h : execute_move s c = some (s', true)) :
    is_valid_move s c = true ∧
    ∃ s2, check_for_game_completion (place_current_player_move s c) = some s2 ∧
      s' = switch_to_next_player_if_game_continues s2 := by
  unfold execute_move at h
  by_cases hv : is_valid_move s c = true
  · rw [if_pos hv] at h
    cases hcomp : check_for_game_completion (place_current_player_move s c) with
    | none =>
      rw [hcomp] at h
      exact absurd h (by simp)
    | some s2 =>
      rw [hcomp] at h
      simp only [Option.some.injEq, Prod.mk.injEq] at h
      exact ⟨hv, s2, rfl, h.1.symm⟩
  · rw [if_neg hv] at h
    simp only [Option.some.injEq, Prod.mk.injEq] at h
    exact absurd h.2 (by simp)

theorem execute_move_rejected {s : GameState} {c : GridCoordinate}
    (hv : is_valid_move s c = false) : execute_move s c = some (s, false) := by
  unfold execute_move
  rw [if_neg (by simp [hv])]

/-- A 4 x 4 board whose first row starts with three X cells: the win
checker's fixed 3-cell patterns declare X the winner although no complete
line of 4 cells exists. -/
def c1Board : List (List Player) :=
  [[Player.X, Player.X, Player.X, Player.O],
   [Player.NONE, Player.NONE, Player.NONE, Player.NONE],
   [Player.NONE, Player.NONE, Player.NONE, Player.NONE],
   [Player.NONE, Player.NONE, Player.NONE, Player.NONE]]

/-- C1 counterexample: grid size 4 is accepted at construction, the board
is a well-formed 4 x 4 board with no complete line of 4 equal non-NONE
cells for any player, yet check_for_winner returns X — so the claimed
equivalence fails for n = 4. -/
theorem c1_counterexample_size_four :
    GridSize.mk? 4 = Except.ok ⟨4⟩ ∧
    boardShaped 4 c1Board ∧
    check_for_winner 4 c1Board = some (some Player.X) ∧
    specCompleteLine 4 c1Board Player.NONE = false ∧
    specCompleteLine 4 c1Board Player.X = false ∧
    specCompleteLine 4 c1Board Player.O = false := by
  refine ⟨rfl, by decide, by decide, by decide, by decide, by decide⟩

/-- C1 (amended to grid size 3, the only size at which the checker's fixed
3-cell row/column/diagonal patterns coincide with complete lines): on every
well-formed 3 x 3 board, check_for_winner returns a player w only if
w ≠ NONE and some row, column or main diagonal consists of cells all equal
to w; it returns none (no winner) iff no such complete line exists for any
player; and it never raises. -/
theorem c1_check_for_winner_correct_3x3 (b : List (List Player))
    (hb : boardShaped 3 b) :
    (∀ w, check_for_winner 3 b = some (some w) →
        w ≠ Player.NONE ∧ specCompleteLine 3 b w = true) ∧
    (check_for_winner 3 b = some none ↔ ∀ p, specCompleteLine 3 b p = false) ∧
    check_for_winner 3 b ≠ none ∧
    (∀ p, specCompleteLine 3 b p = true →
        ∃ w, check_for_winner 3 b = some (some w)) := by
  refine ⟨fun w hw => cfw3_winner_spec hw, cfw3_none_iff hb,
    check_for_winner_ne_none (le_refl 3) hb, ?_⟩
  intro p hp
  cases hcw : check_for_winner 3 b with
  | none => exact absurd hcw (check_for_winner_ne_none (le_refl 3) hb)
  | some o =>
    cases o with
    | none =>
      have := cfw3_none_no_spec hcw p
      rw [hp] at this
      exact Bool.noConfusion this
    | some w => exact ⟨w, rfl⟩

/-- Witness for C1: the amended theorem applied to a concrete 3 x 3 board
whose first row is X X X. -/
theorem c1_check_for_winner_correct_3x3_witness :
    boardShaped 3
      [[Player.X, Player.X, Player.X],
       [Player.O, Player.O, Player.NONE],
       [Player.NONE, Player.NONE, Player.NONE]] ∧
    (Player.X ≠ Player.NONE ∧
      specCompleteLine 3
        [[Player.X, Player.X, Player.X],
         [Player.O, Player.O, Player.NONE],
         [Player.NONE, Player.NONE, Player.NONE]] Player.X = true) := by
  constructor
  · decide
  · exact (c1_check_for_winner_correct_3x3 _ (by decide)).1 Player.X (by decide)

/-- C2: grid size 2 is accepted by GridSize, coordinate (0,0) is in bounds
and the move is valid, yet execute_move (and attempt_move) raises an
IndexError (modelled by `none`) instead of completing: the claimed totality
over sizes 1..10 fails, contradicting the spec's stated intent. -/
theorem c2_size_two_first_move_raises :
    GridSize.mk? 2 = Except.ok ⟨2⟩ ∧
    GridCoordinate.mk? 0 0 = Except.ok ⟨0, 0⟩ ∧
    (⟨0, 0⟩ : GridCoordinate).is_valid_for_grid 2 = true ∧
    is_valid_move (GameState.ofGridSize ⟨2⟩) ⟨0, 0⟩ = true ∧
    execute_move (GameState.ofGridSize ⟨2⟩) ⟨0, 0⟩ = none ∧
    attempt_move (GameState.ofGridSize ⟨2⟩) ⟨0, 0⟩ = none := by
  refine ⟨rfl, rfl, by decide, by decide, by decide, by decide⟩

/-- The 16-move alternating fill of a 4 x 4 board that ends in TIE while
X holds the complete anti-diagonal (0,3),(1,2),(2,1),(3,0): the fixed
3-cell patterns of the win checker never fire during the game. -/
def tieMoves : List GridCoordinate :=
  [⟨0, 0⟩, ⟨0, 1⟩, ⟨0, 3⟩, ⟨0, 2⟩, ⟨1, 1⟩, ⟨1, 0⟩, ⟨1, 2⟩, ⟨1, 3⟩,
   ⟨2, 1⟩, ⟨2, 0⟩, ⟨2, 3⟩, ⟨2, 2⟩, ⟨3, 0⟩, ⟨3, 1⟩, ⟨3, 2⟩, ⟨3, 3⟩]

/-- C3 counterexample: a reachable size-4 game state whose status is TIE
although a complete winning line (the anti-diagonal, all X) exists on the
board — the claimed invariant fails beyond 3 x 3. -/
theorem c3_counterexample_tie_with_line :
    Reachable 4 (applyMoves (GameState.init 4) tieMoves) ∧
    (applyMoves (GameState.init 4) tieMoves).status = GameStatus.TIE ∧
    specCompleteLine 4 (applyMoves (GameState.init 4) tieMoves).board Player.X = true := by
  refine ⟨reachable_applyMoves 4 (GameState.init 4) tieMoves Reachable.init, ?_, ?_⟩
  · decide
  · decide

/-- C3 (amended: part one restricted to grid size 3): in every reachable
3 x 3 state, status = TIE implies the board is full and no complete winning
line exists; and (at every size) a move that produces a winner is scored as
the corresponding WINS status, never TIE, because the winner check runs
before the board-full check. -/
theorem c3_tie_no_winner :
    (∀ s, Reachable 3 s → s.status = GameStatus.TIE →
        is_board_full 3 s.board = true ∧ ∀ p, specCompleteLine 3 s.board p = false) ∧
    (∀ s c s' w, execute_move s c = some (s', true) →
        check_for_winner s'.gridSize s'.board = some (some w) →
        s'.status = (if w == Player.X then GameStatus.X_WINS else GameStatus.O_WINS) ∧
        s'.status ≠ GameStatus.TIE) := by
  constructor
  · intro s hreach htie
    obtain ⟨hfull, hnone⟩ := (reachable_inv hreach).tie_full htie
    exact ⟨hfull, cfw3_none_no_spec hnone⟩
  · intro s c s' w h hw
    obtain ⟨hv, s2, hcomp, hs'⟩ := execute_move_accepted h
    obtain ⟨hpl, hbd, hsz, hmh⟩ := completion_fields hcomp
    have hw1 : check_for_winner (place_current_player_move s c).gridSize
        (place_current_player_move s c).board = some (some w) := by
      rw [← hsz, ← hbd]
      rw [hs'] at hw
      simpa using hw
    have hstat2 := completion_of_winner hcomp hw1
    have hs'stat : s'.status = s2.status := by rw [hs', switch_status]
    constructor
    · rw [hs'stat, hstat2]
    · rw [hs'stat, hstat2]
      cases hwx : (w == Player.X) <;> simp

/-- Witness for C3: part one at the scenario-B tie on 3 x 3, part two at
the winning fifth move of scenario A. -/
theorem c3_tie_no_winner_witness :
    (is_board_full 3 (applyMoves (GameState.init 3)
        [⟨0, 0⟩, ⟨0, 1⟩, ⟨0, 2⟩, ⟨1, 0⟩, ⟨1, 2⟩, ⟨1, 1⟩, ⟨2, 0⟩, ⟨2, 2⟩, ⟨2, 1⟩]).board = true ∧
     ∀ p, specCompleteLine 3 (applyMoves (GameState.init 3)
        [⟨0, 0⟩, ⟨0, 1⟩, ⟨0, 2⟩, ⟨1, 0⟩, ⟨1, 2⟩, ⟨1, 1⟩, ⟨2, 0⟩, ⟨2, 2⟩, ⟨2, 1⟩]).board p = false) ∧
    ((applyMoves (GameState.init 3)
        [⟨0, 0⟩, ⟨1, 0⟩, ⟨0, 1⟩, ⟨1, 1⟩, ⟨0, 2⟩]).status =
       (if Player.X == Player.X then GameStatus.X_WINS else GameStatus.O_WINS) ∧
     (applyMoves (GameState.init 3)
        [⟨0, 0⟩, ⟨1, 0⟩, ⟨0, 1⟩, ⟨1, 1⟩, ⟨0, 2⟩]).status ≠ GameStatus.TIE) := by
  constructor
  · exact c3_tie_no_winner.1 _
      (reachable_applyMoves 3 (GameState.init 3) _ Reachable.init) (by decide)
  · exact c3_tie_no_winner.2
      (applyMoves (GameState.init 3) [⟨0, 0⟩, ⟨1, 0⟩, ⟨0, 1⟩, ⟨1, 1⟩]) ⟨0, 2⟩
      (applyMoves (GameState.init 3) [⟨0, 0⟩, ⟨1, 0⟩, ⟨0, 1⟩, ⟨1, 1⟩, ⟨0, 2⟩])
      Player.X (by decide) (by decide)

/-- C4: whenever a move attempt is invalid (terminal status, out of bounds,
or occupied cell — exactly the cases where is_valid_move is false),
execute_move returns the state unchanged with result false, and
attempt_move returns the state unchanged with accepted = false. -/
theorem c4_rejection_changes_nothing :
    ∀ (s : GameState) (c : GridCoordinate), is_valid_move s c = false →
      execute_move s c = some (s, false) ∧
      ∃ msg, attempt_move s c = some (s, false, msg) := by
  intro s c hv
  refine ⟨execute_move_rejected hv, ?_⟩
  unfold attempt_move
  by_cases hstat : s.status = GameStatus.IN_PROGRESS
  · rw [if_neg (by simp [hstat])]
    rw [if_pos (by simp [hv])]
    exact ⟨_, rfl⟩
  · rw [if_pos (by simpa using hstat)]
    exact ⟨_, rfl⟩

/-- Witness for C4: rejection of the out-of-bounds coordinate (3,3) on a
fresh 3 x 3 game. -/
theorem c4_rejection_changes_nothing_witness :
    execute_move (GameState.init 3) ⟨3, 3⟩ = some (GameState.init 3, false) ∧
    ∃ msg, attempt_move (GameState.init 3) ⟨3, 3⟩ =
      some (GameState.init 3, false, msg) :=
  c4_rejection_changes_nothing (GameState.init 3) ⟨3, 3⟩ (by decide)

/-- C5: in every reachable state the logged movers alternate strictly
X, O, X, ... and, while the game is in progress, the current player is
determined by the parity of the move count; a move that ends the game does
not advance the current player; and in a terminal state every further
execute_move leaves the state unchanged. -/
theorem c5_turn_alternation :
    (∀ n s, Reachable n s →
        s.move_history.map Move.player = alternatingPlayers s.move_history.length ∧
        (s.status = GameStatus.IN_PROGRESS →
          s.current_player = parityPlayer s.move_history.length)) ∧
    (∀ s c s', execute_move s c = some (s', true) →
        s'.status ≠ GameStatus.IN_PROGRESS → s'.current_player = s.current_player) ∧
    (∀ s c, s.status ≠ GameStatus.IN_PROGRESS → execute_move s c = some (s, false)) ∧
    (∀ s c, s.status ≠ GameStatus.IN_PROGRESS →
        attempt_move s c = some (s, false, "Game is already finished")) := by
  refine ⟨?_, ?_, ?_, ?_⟩
  · intro n s h
    exact ⟨(reachable_inv h).alt, (reachable_inv h).cur_parity⟩
  · intro s c s' h hterm
    obtain ⟨hv, s2, hcomp, hs'⟩ := execute_move_accepted h
    obtain ⟨hpl, hbd, hsz, hmh⟩ := completion_fields hcomp
    have hs2stat : s2.status ≠ GameStatus.IN_PROGRESS := by
      intro hP
      exact hterm (by rw [hs', switch_status, hP])
    rw [hs', switch_of_not_in_progress hs2stat, hpl, pcp_player]
  · intro s c hterm
    apply execute_move_rejected
    unfold is_valid_move
    simp [hterm]
  · intro s c hterm
    unfold attempt_move
    rw [if_pos (by simpa using hterm)]

/-- Witness for C5: the alternation facts at a fresh game, the frozen
player at the winning fifth move of scenario A, and rejection after the
game has ended. -/
theorem c5_turn_alternation_witness :
    ((GameState.init 3).move_history.map Move.player =
        alternatingPlayers (GameState.init 3).move_history.length ∧
      ((GameState.init 3).status = GameStatus.IN_PROGRESS →
        (GameState.init 3).current_player =
          parityPlayer (GameState.init 3).move_history.length)) ∧
    (applyMoves (GameState.init 3) [⟨0, 0⟩, ⟨1, 0⟩, ⟨0, 1⟩, ⟨1, 1⟩, ⟨0, 2⟩]).current_player =
      (applyMoves (GameState.init 3) [⟨0, 0⟩, ⟨1, 0⟩, ⟨0, 1⟩, ⟨1, 1⟩]).current_player ∧
    execute_move (applyMoves (GameState.init 3) [⟨0, 0⟩, ⟨1, 0⟩, ⟨0, 1⟩, ⟨1, 1⟩, ⟨0, 2⟩]) ⟨2, 2⟩ =
      some (applyMoves (GameState.init 3) [⟨0, 0⟩, ⟨1, 0⟩, ⟨0, 1⟩, ⟨1, 1⟩, ⟨0, 2⟩], false) ∧
    attempt_move (applyMoves (GameState.init 3) [⟨0, 0⟩, ⟨1, 0⟩, ⟨0, 1⟩, ⟨1, 1⟩, ⟨0, 2⟩]) ⟨2, 2⟩ =
      some (applyMoves (GameState.init 3) [⟨0, 0⟩, ⟨1, 0⟩, ⟨0, 1⟩, ⟨1, 1⟩, ⟨0, 2⟩], false,
        "Game is already finished") := by
  refine ⟨c5_turn_alternation.1 3 (GameState.init 3) Reachable.init, ?_, ?_, ?_⟩
  · exact c5_turn_alternation.2.1
      (applyMoves (GameState.init 3) [⟨0, 0⟩, ⟨1, 0⟩, ⟨0, 1⟩, ⟨1, 1⟩]) ⟨0, 2⟩
      (applyMoves (GameState.init 3) [⟨0, 0⟩, ⟨1, 0⟩, ⟨0, 1⟩, ⟨1, 1⟩, ⟨0, 2⟩])
      (by decide) (by decide)
  · exact c5_turn_alternation.2.2.1
      (applyMoves (GameState.init 3) [⟨0, 0⟩, ⟨1, 0⟩, ⟨0, 1⟩, ⟨1, 1⟩, ⟨0, 2⟩]) ⟨2, 2⟩
      (by decide)
  · exact c5_turn_alternation.2.2.2
      (applyMoves (GameState.init 3) [⟨0, 0⟩, ⟨1, 0⟩, ⟨0, 1⟩, ⟨1, 1⟩, ⟨0, 2⟩]) ⟨2, 2⟩
      (by decide)

/-- C6: is_valid_move s c is true exactly when the game is in progress, the
coordinate lies within the grid bounds (0 ≤ row, col < size), and the
addressed cell holds NONE. -/
theorem c6_is_valid_move_characterization :
    ∀ (s : GameState) (c : GridCoordinate),
      is_valid_move s c = true ↔
        s.status = GameStatus.IN_PROGRESS ∧
        0 ≤ c.row ∧ c.row < (s.gridSize : Int) ∧
        0 ≤ c.col ∧ c.col < (s.gridSize : Int) ∧
        cell? s.board c.row.toNat c.col.toNat = some Player.NONE :=
  is_valid_move_iff

/-- C7: after start_new_game / reset_to_initial_state — from any state
whatsoever, terminal or not — every board cell is NONE, the move log is
empty, the current player is X, the status is IN_PROGRESS and the winner
is none. -/
theorem c7_full_reset_law :
    ∀ s : GameState,
      (∀ row ∈ (GameService.start_new_game s).board, ∀ p ∈ row, p = Player.NONE) ∧
      boardShaped s.gridSize (GameService.start_new_game s).board ∧
      (GameService.start_new_game s).move_history = [] ∧
      (GameService.start_new_game s).current_player = Player.X ∧
      (GameService.start_new_game s).status = GameStatus.IN_PROGRESS ∧
      (GameService.start_new_game s).winner = none ∧
      GameService.start_new_game s = reset_to_initial_state s := by
  intro s
  refine ⟨?_, boardShaped_empty s.gridSize, rfl, rfl, rfl, rfl, rfl⟩
  intro row hrow p hp
  have hr := List.eq_of_mem_replicate hrow
  rw [hr] at hp
  exact List.eq_of_mem_replicate hp

/-- C8: in every reachable state the move-log length equals the number of
non-NONE cells on the board. -/
theorem c8_log_cardinality :
    ∀ (n : Nat) (s : GameState), Reachable n s →
      s.move_history.length = countNonNone s.board :=
  fun _ _ h => (reachable_inv h).log_count

/-- Witness for C8: the invariant instantiated at a freshly constructed
3 x 3 game. -/
theorem c8_log_cardinality_witness :
    (GameState.init 3).move_history.length = countNonNone (GameState.init 3).board :=
  c8_log_cardinality 3 (GameState.init 3) Reachable.init

/-- C9: GridCoordinate construction fails exactly on a negative row or
column and otherwise stores its inputs unchanged; GridSize construction
fails on size ≤ 0 and on size > 10, succeeds at 10, and never clamps. -/
theorem c9_construction_errors :
    (∀ r c : Int, (r < 0 ∨ c < 0) →
        GridCoordinate.mk? r c = Except.error "Grid coordinates must be non-negative") ∧
    (∀ r c : Int, 0 ≤ r → 0 ≤ c → GridCoordinate.mk? r c = Except.ok ⟨r, c⟩) ∧
    (∀ z : Int, z ≤ 0 → GridSize.mk? z = Except.error "Grid size must be positive") ∧
    (∀ z : Int, 10 < z →
        GridSize.mk? z = Except.error "Grid size too large (maximum 10)") ∧
    GridSize.mk? 10 = Except.ok ⟨10⟩ ∧
    (∀ z t, GridSize.mk? z = Except.ok t → t.size = z) ∧
    (∀ r c t, GridCoordinate.mk? r c = Except.ok t → t.row = r ∧ t.col = c) := by
  refine ⟨?_, ?_, ?_, ?_, rfl, ?_, ?_⟩
  · intro r c h
    unfold GridCoordinate.mk?
    rw [if_pos h]
  · intro r c hr hc
    unfold GridCoordinate.mk?
    rw [if_neg (by omega)]
  · intro z h
    unfold GridSize.mk?
    rw [if_pos h]
  · intro z h
    unfold GridSize.mk?
    rw [if_neg (by omega), if_pos (by omega)]
  · intro z t h
    unfold GridSize.mk? at h
    by_cases h1 : z ≤ 0
    · rw [if_pos h1] at h
      exact absurd h (by simp)
    · rw [if_neg h1] at h
      by_cases h2 : z > 10
      · rw [if_pos h2] at h
        exact absurd h (by simp)
      · rw [if_neg h2] at h
        simp only [Except.ok.injEq] at h
        rw [← h]
  · intro r c t h
    unfold GridCoordinate.mk? at h
    by_cases h1 : r < 0 ∨ c < 0
    · rw [if_pos h1] at h
      exact absurd h (by simp)
    · rw [if_neg h1] at h
      simp only [Except.ok.injEq] at h
      rw [← h]
      exact ⟨rfl, rfl⟩

/-- Witness for C9: row -1 fails, size 11 fails, size 10 succeeds, size 3
stores 3. -/
theorem c9_construction_errors_witness :
    GridCoordinate.mk? (-1) 0 = Except.error "Grid coordinates must be non-negative" ∧
    GridSize.mk? 11 = Except.error "Grid size too large (maximum 10)" ∧
    GridCoordinate.mk? 2 1 = Except.ok ⟨2, 1⟩ ∧
    GridSize.mk? 0 = Except.error "Grid size must be positive" :=
  ⟨c9_construction_errors.1 (-1) 0 (by decide),
   c9_construction_errors.2.2.2.1 11 (by decide),
   c9_construction_errors.2.1 2 1 (by decide) (by decide),
   c9_construction_errors.2.2.1 0 (by decide)⟩

/-- C10: start_new_game resets unconditionally — it never consults
can_restart — so calling it on an in-progress state (where can_restart is
false) still discards the game and returns the fresh initial state. -/
theorem c10_start_new_game_unconditional :
    (∀ s : GameState, GameService.start_new_game s =
        { gridSize := s.gridSize, board := createEmptyBoard s.gridSize,
          current_player := Player.X, status := GameStatus.IN_PROGRESS,
          winner := none, move_history := [] }) ∧
    (applyMoves (GameState.init 3) [⟨0, 0⟩]).status = GameStatus.IN_PROGRESS ∧
    can_restart (applyMoves (GameState.init 3) [⟨0, 0⟩]) = false ∧
    applyMoves (GameState.init 3) [⟨0, 0⟩] ≠ GameState.init 3 ∧
    GameService.start_new_game (applyMoves (GameState.init 3) [⟨0, 0⟩]) =
      GameState.init 3 := by
  refine ⟨fun s => rfl, by decide, by decide, by decide, by decide⟩

end PyGame
